import Mathlib

/-!
Verification model of the database-provisioning orchestrator of the
`elsa-data-aws-infrastructure-deploy` repository.

The embedding covers, faithfully to the TypeScript source:

* the database-name validation and the `camelCase`-based derivation of the
  CDK-safe identifier in `src/stack/infrastructure-stack.ts` (lines 345-357),
  including a model of lodash's `camelCase` for ASCII input;
* the postgres variant dispatch (`switch (dbConfig.postgresType)`, lines 381-402);
* the SSM parameter keys published for each database (lines 411-468 and 510-544);
* the EdgeDB precondition check and port defaulting (lines 470-508);
* `InstanceBaseDatabase` (security group, storage sizing, teardown policy and
  DSN construction, `src/unnamed/part_001`);
* `EdgeDbConstruct` DSN / UI-URL port elision (`src/unnamed/part_000`).

Resource creation is modelled as a trace of `Step` values emitted in source
order; a thrown `Error` is modelled as the trace produced so far paired with
`some errorMessage`.
-/

namespace ElsaInfra

/-! ### ASCII character classes

The predicates below mirror the character classes used by the validation
regular expression `[a-zA-Z0-9_.]` of `infrastructure-stack.ts` line 347 and
by lodash's word splitting, expressed on `Char.toNat` code points. -/

def isAsciiUpperCh (c : Char) : Bool := 65 ≤ c.toNat && c.toNat ≤ 90

def isAsciiLowerCh (c : Char) : Bool := 97 ≤ c.toNat && c.toNat ≤ 122

def isAsciiDigitCh (c : Char) : Bool := 48 ≤ c.toNat && c.toNat ≤ 57

def isAsciiLetterCh (c : Char) : Bool := isAsciiUpperCh c || isAsciiLowerCh c

def isAsciiAlnumCh (c : Char) : Bool := isAsciiLetterCh c || isAsciiDigitCh c

/-- One character of the class `[a-zA-Z0-9_.]` used by the name validation
(code 95 is the underscore, code 46 is the dot). -/
def isAllowedNameChar (c : Char) : Bool :=
  isAsciiAlnumCh c || c.toNat == 95 || c.toNat == 46

/-- Semantics of the UNANCHORED JavaScript test
`/[a-zA-Z0-9_.]+/.test(name)` (infrastructure-stack.ts line 347): it
succeeds exactly when some nonempty substring consists of allowed
characters, i.e. when at least one character of `name` is allowed. -/
def regexTestDbName (name : String) : Bool :=
  name.data.any isAllowedNameChar

/-- The predicate the specification ascribes to the validation: the whole
name matches `[a-zA-Z0-9_.]+`, i.e. it is nonempty and every character is
in the allowed class. -/
def matchesNamePattern (name : String) : Bool :=
  !name.isEmpty && name.data.all isAllowedNameChar

/-! ### lodash `camelCase` for ASCII input

`infrastructure-stack.ts` line 352 calls lodash's `camelCase`.  For ASCII
input (all inputs the claims quantify over), `camelCase` is: remove
apostrophes, split into words with the unicode word pattern (runs of
letters split at case boundaries, runs of digits, with special treatment
of ordinals such as `21st` / `2ND`, and every other character acting as a
separator), lowercase every word, concatenate with every word after the
first capitalized.  The scanner below implements exactly that word
pattern for ASCII; when lodash would dispatch to its plain-ASCII word
pattern instead (no case/digit boundaries and no punctuation present) the
two patterns agree, so the scanner is used unconditionally. -/

/-- Word-run extraction for a letter `c` followed by `rest`: an upper run
keeps all uppers, except that a trailing upper directly followed by a
lower belongs to the next word (`FOOBar` splits as `FOO`, `Bar`). -/
def takeUpperRun (c : Char) (rest : List Char) : List Char × List Char :=
  let ups := rest.takeWhile isAsciiUpperCh
  let rest2 := rest.dropWhile isAsciiUpperCh
  match ups.getLast?, rest2 with
  | some u, r :: _ =>
    if isAsciiLowerCh r then (c :: ups.dropLast, u :: rest2) else (c :: ups, rest2)
  | _, _ => (c :: ups, rest2)

/-- Extraction of a letter-headed word: `[A-Z]?[a-z]+` runs (`fooBar`
splits as `foo`, `Bar`) or upper runs via `takeUpperRun`. -/
def takeLetterWord (c : Char) (rest : List Char) : List Char × List Char :=
  if isAsciiLowerCh c then
    (c :: rest.takeWhile isAsciiLowerCh, rest.dropWhile isAsciiLowerCh)
  else
    match rest with
    | r :: _ =>
      if isAsciiLowerCh r then
        (c :: rest.takeWhile isAsciiLowerCh, rest.dropWhile isAsciiLowerCh)
      else takeUpperRun c rest
    | [] => ([c], [])

/-- The uppercase ordinal literal of lodash's word pattern:
`1ST`, `2ND`, `3RD` or `xTH` with `x` a digit other than 1, 2, 3.
`lastd` is the final digit of the digit run. -/
def isUpperOrdinalSuffix (lastd a b : Char) : Bool :=
  (lastd == '1' && a == 'S' && b == 'T') ||
  (lastd == '2' && a == 'N' && b == 'D') ||
  (lastd == '3' && a == 'R' && b == 'D') ||
  (isAsciiDigitCh lastd && lastd != '1' && lastd != '2' && lastd != '3' &&
    a == 'T' && b == 'H')

/-- The lowercase ordinal literal: `1st`, `2nd`, `3rd` or `xth` with `x` a
digit other than 1, 2, 3. -/
def isLowerOrdinalSuffix (lastd a b : Char) : Bool :=
  (lastd == '1' && a == 's' && b == 't') ||
  (lastd == '2' && a == 'n' && b == 'd') ||
  (lastd == '3' && a == 'r' && b == 'd') ||
  (isAsciiDigitCh lastd && lastd != '1' && lastd != '2' && lastd != '3' &&
    a == 't' && b == 'h')

/-- Lookahead `(?=\b|[a-z_])` after an uppercase ordinal: the next
character must not be an uppercase letter or a digit. -/
def upperOrdinalLookahead (r : List Char) : Bool :=
  match r with
  | [] => true
  | x :: _ => !(isAsciiUpperCh x || isAsciiDigitCh x)

/-- Lookahead `(?=\b|[A-Z_])` after a lowercase ordinal: the next
character must not be a lowercase letter or a digit. -/
def lowerOrdinalLookahead (r : List Char) : Bool :=
  match r with
  | [] => true
  | x :: _ => !(isAsciiLowerCh x || isAsciiDigitCh x)

/-- Extraction of a digit-headed word: the maximal digit run, extended by
an ordinal suffix (`21st`, `2ND`, ...) when lodash's ordinal alternatives
match. -/
def takeDigitWord (c : Char) (rest : List Char) : List Char × List Char :=
  let ds := c :: rest.takeWhile isAsciiDigitCh
  let rest2 := rest.dropWhile isAsciiDigitCh
  let lastd := (rest.takeWhile isAsciiDigitCh).getLastD c
  match rest2 with
  | a :: b :: r3 =>
    if isUpperOrdinalSuffix lastd a b && upperOrdinalLookahead r3 then
      (ds ++ [a, b], r3)
    else if isLowerOrdinalSuffix lastd a b && lowerOrdinalLookahead r3 then
      (ds ++ [a, b], r3)
    else (ds, rest2)
  | _ => (ds, rest2)

/-- The word scanner (lodash `words` on ASCII input).  `fuel` bounds the
number of scanning steps; `fuel = l.length` always suffices because every
step consumes at least one character. -/
def unicodeWordsAux : Nat → List Char → List (List Char)
  | 0, _ => []
  | _, [] => []
  | fuel + 1, c :: rest =>
    if isAsciiLetterCh c then
      (takeLetterWord c rest).1 :: unicodeWordsAux fuel (takeLetterWord c rest).2
    else if isAsciiDigitCh c then
      (takeDigitWord c rest).1 :: unicodeWordsAux fuel (takeDigitWord c rest).2
    else unicodeWordsAux fuel rest

/-- lodash `words` on the character list of an ASCII string. -/
def lodashWords (l : List Char) : List (List Char) :=
  unicodeWordsAux l.length l

/-- lodash `upperFirst` on a word. -/
def capitalizeAsciiWord : List Char → List Char
  | [] => []
  | x :: t => x.toUpper :: t

/-- lodash `camelCase` for ASCII strings: apostrophes (codes 39 and 8217)
are removed, the string is split into words, every word is lowercased and
all words after the first are capitalized. -/
def lodashCamelCase (s : String) : String :=
  let cleaned := s.data.filter fun c => c.toNat != 39 && c.toNat != 8217
  match lodashWords cleaned with
  | [] => ""
  | w :: ws =>
    ⟨w.map Char.toLower ++ ws.flatMap fun v => capitalizeAsciiWord (v.map Char.toLower)⟩

/-- The identifier derivation of `infrastructure-stack.ts` lines 352-357:
`camelCase(name)` with the first character forced to upper case.  When
`camelCase` produces the empty string, the JavaScript expression
`cdkIdSafeDbName[0].toUpperCase()` dereferences `undefined` and throws a
`TypeError`; that fault is modelled as `none`. -/
def cdkIdSafeDbNameOf (name : String) : Option String :=
  match (lodashCamelCase name).data with
  | [] => none
  | c :: rest => some ⟨c.toUpper :: rest⟩

/-! ### Configuration data model

The relevant fields of `DatabaseConfig` and its `edgeDb` sub-config, as
consumed by `infrastructure-stack.ts`.  Optional TypeScript fields are
`Option`s; `postgresType` is carried as the string the `switch` statement
compares against. -/

/-- The `makePubliclyReachable` block of an `edgeDb` sub-config. -/
structure EdgeDbPublic where
  uiPort : Option Nat
  urlPrefixVal : Option String
deriving DecidableEq, Repr

/-- The `edgeDb` sub-config of a `DatabaseConfig`. -/
structure EdgeDbConfig where
  version : String
  cpu : Option Nat
  memoryLimitMiB : Option Nat
  dbPort : Option Nat
  makePubliclyReachable : Option EdgeDbPublic
deriving DecidableEq, Repr

/-- One entry of the orchestrator's `props.databases` list. -/
structure DatabaseConfig where
  name : String
  adminUser : String
  postgresType : String
  destroyOnRemove : Option Bool
  makePubliclyReachable : Option Bool
  overrideAllocatedStorage : Option Nat
  edgeDb : Option EdgeDbConfig
deriving DecidableEq, Repr

/-- JavaScript truthiness of an optional boolean (`undefined` is falsy). -/
def truthy : Option Bool → Bool
  | some b => b
  | none => false

/-! ### InstanceBaseDatabase (`src/unnamed/part_001`)

The constructor of `InstanceBaseDatabase` is modelled as a pure function
of its props.  The RDS endpoint hostname and port are late-bound CDK
attributes of the created instance; they enter the model as inputs
(`endpointHostname`, `endpointPort`), as do the two unresolved secret
tokens interpolated into the DSN-with-tokens. -/

/-- Source of an ingress rule: `ec2.Peer.anyIpv4()` or the security group
itself (self-referential rule). -/
inductive IngressPeer
  | anyIpv4
  | selfGroup
deriving DecidableEq, Repr

/-- One ingress rule: a peer and a TCP port (`ec2.Port.tcp(p)`). -/
structure IngressRule where
  peer : IngressPeer
  tcpPort : Nat
deriving DecidableEq, Repr

/-- The security-group state produced by the construct. -/
structure SecurityGroupModel where
  allowAllOutbound : Bool
  allowAllIpv6Outbound : Bool
  ingressRules : List IngressRule
deriving DecidableEq, Repr

/-- CDK `RemovalPolicy` values used by the construct. -/
inductive RemovalPolicyM
  | destroy
  | snapshot
deriving DecidableEq, Repr

/-- Props of `InstanceBaseDatabase` (plus the late-bound endpoint
attributes and secret tokens described above). -/
structure InstanceBaseDatabaseProps where
  databaseName : String
  databaseAdminUser : String
  destroyOnRemove : Option Bool
  makePubliclyReachable : Option Bool
  overrideAllocatedStorage : Option Nat
  secretUsernameToken : String
  secretPasswordToken : String
  endpointHostname : String
  endpointPort : Nat
deriving DecidableEq, Repr

/-- Observable state of a constructed `InstanceBaseDatabase`. -/
structure InstanceBaseDatabaseModel where
  securityGroup : SecurityGroupModel
  removalPolicy : RemovalPolicyM
  deleteAutomatedBackups : Option Bool
  storageEncrypted : Bool
  allocatedStorage : Nat
  maxAllocatedStorage : Nat
  dsnWithTokens : String
  dsnNoPassword : String
  hostname : String
  port : Nat
deriving DecidableEq, Repr

/-- The `InstanceBaseDatabase` constructor (part_001 lines 68-133): a
security group with no default outbound allowance and a single ingress
rule (any IPv4 when `makePubliclyReachable`, else self-referential), the
`DatabaseInstance` props (removal policy, backups, storage sizing) and
the two DSN forms, which always render `:<port>`. -/
def instanceBaseDatabase (props : InstanceBaseDatabaseProps) : InstanceBaseDatabaseModel :=
  { securityGroup :=
      { allowAllOutbound := false
        allowAllIpv6Outbound := false
        ingressRules :=
          [{ peer := if truthy props.makePubliclyReachable then
               IngressPeer.anyIpv4 else IngressPeer.selfGroup
             tcpPort := props.endpointPort }] }
    removalPolicy := if truthy props.destroyOnRemove then
      RemovalPolicyM.destroy else RemovalPolicyM.snapshot
    deleteAutomatedBackups := props.destroyOnRemove
    storageEncrypted := true
    allocatedStorage := props.overrideAllocatedStorage.getD 20
    maxAllocatedStorage := 100
    dsnWithTokens :=
      "postgres://" ++ props.secretUsernameToken ++ ":" ++ props.secretPasswordToken ++
        "@" ++ props.endpointHostname ++ ":" ++ toString props.endpointPort ++ "/" ++
        props.databaseName
    dsnNoPassword :=
      "postgres://" ++ props.databaseAdminUser ++ "@" ++ props.endpointHostname ++ ":" ++
        toString props.endpointPort ++ "/" ++ props.databaseName
    hostname := props.endpointHostname
    port := props.endpointPort }

/-! ### EdgeDbConstruct DSN and UI URL (`src/unnamed/part_000`) -/

/-- `edgeDbPortString` (part_000 lines 93-96): the `:<port>` suffix is
rendered only when the TCP pass-through port differs from 5656. -/
def edgeDbPortString (tcpPassthroughPort : Nat) : String :=
  if tcpPassthroughPort != 5656 then ":" ++ toString tcpPassthroughPort else ""

/-- The EdgeDB protocol DSN (part_000 line 98), with the load balancer's
DNS name as a late-bound input. -/
def edgeDbDsn (superUser lbDnsName : String) (tcpPassthroughPort : Nat) : String :=
  "edgedb://" ++ superUser ++ "@" ++ lbDnsName ++ edgeDbPortString tcpPassthroughPort

/-- `tlsPortString` (part_000 lines 118-121): the `:<port>` suffix is
rendered only when the hosted UI port differs from 443. -/
def tlsPortString (hostedPort : Nat) : String :=
  if hostedPort != 443 then ":" ++ toString hostedPort else ""

/-- The EdgeDB UI URL (part_000 line 123). -/
def edgeDbUiUrl (uiLbDnsName : String) (hostedPort : Nat) : String :=
  "https://" ++ uiLbDnsName ++ tlsPortString hostedPort ++ "/ui"

/-! ### Port defaulting at the EdgeDB construct boundary
(`infrastructure-stack.ts` lines 496-507) -/

/-- `dbConfig.edgeDb.dbPort || 5656`: JavaScript `||` replaces every falsy
value, so an explicit 0 is also replaced. -/
def resolveTcpPassthroughPort (dbPort : Option Nat) : Nat :=
  match dbPort with
  | some p => if p == 0 then 5656 else p
  | none => 5656

/-- `dbConfig.edgeDb.makePubliclyReachable.uiPort ?? 443`: JavaScript `??`
replaces only `null`/`undefined`, so an explicit 0 is kept. -/
def resolveUiHostedPort (uiPort : Option Nat) : Nat :=
  uiPort.getD 443

/-! ### Parameter keys (`infrastructure-stack.ts` lines 411-468, 510-544) -/

/-- Shape of every per-database SSM parameter name:
`/<stackId>/Database/<dbName>/<field>`. -/
def mkDatabaseParameterKey (stackId dbName field : String) : String :=
  "/" ++ stackId ++ "/Database/" ++ dbName ++ "/" ++ field

/-- The seven field names published for every base database, in source
order (lines 411-468). -/
def baseParameterFields : List String :=
  ["dsnWithPassword", "dsnNoPassword", "hostname", "port", "adminUser",
   "adminPasswordSecretArn", "securityGroupId"]

/-- The base-database parameter keys for one database. -/
def baseParameterKeys (stackId dbName : String) : List String :=
  baseParameterFields.map (mkDatabaseParameterKey stackId dbName)

/-- Modelled from the spec: the key builder
`databaseEdgeDbDsnNoPasswordOrDatabaseParameterName` is imported from the
`elsa-data-aws-infrastructure-shared` package, which is not part of this
repository's sources; per the spec every derived value is published under
`/<stackId>/Database/<dbName>/<fieldName>` with an EdgeDB-specific field
set parallel to the base one. -/
def databaseEdgeDbDsnNoPasswordOrDatabaseParameterName (stackId dbName : String) : String :=
  mkDatabaseParameterKey stackId dbName "edgeDbDsnNoPasswordOrDatabase"

/-- Modelled from the spec: see
`databaseEdgeDbDsnNoPasswordOrDatabaseParameterName`; the EdgeDB admin
password secret ARN key of the shared package. -/
def databaseEdgeDbAdminPasswordSecretArnParameterName (stackId dbName : String) : String :=
  mkDatabaseParameterKey stackId dbName "edgeDbAdminPasswordSecretArn"

/-- Modelled from the spec: see
`databaseEdgeDbDsnNoPasswordOrDatabaseParameterName`; the EdgeDB security
group id key of the shared package. -/
def databaseEdgeDbSecurityGroupIdParameterName (stackId dbName : String) : String :=
  mkDatabaseParameterKey stackId dbName "edgeDbSecurityGroupId"

/-- The three EdgeDB parameter keys for one database, in source order
(lines 510-544). -/
def edgeDbParameterKeys (stackId dbName : String) : List String :=
  [databaseEdgeDbDsnNoPasswordOrDatabaseParameterName stackId dbName,
   databaseEdgeDbAdminPasswordSecretArnParameterName stackId dbName,
   databaseEdgeDbSecurityGroupIdParameterName stackId dbName]

/-- The EdgeDB-specific field names, parallel to `baseParameterFields`. -/
def edgeDbParameterFields : List String :=
  ["edgeDbDsnNoPasswordOrDatabase", "edgeDbAdminPasswordSecretArn",
   "edgeDbSecurityGroupId"]

/-- Every field name a single database can publish under. -/
def allParameterFields : List String :=
  baseParameterFields ++ edgeDbParameterFields

/-! ### The per-database orchestration step
(`infrastructure-stack.ts` lines 345-547) -/

/-- The two variants of the `switch (dbConfig.postgresType)` dispatch. -/
inductive PostgresVariant
  | fixedInstance
  | serverless2
deriving DecidableEq, Repr

/-- `switch (dbConfig.postgresType)` (lines 381-402): the two recognized
string values construct the corresponding variant, anything else throws. -/
def dispatchPostgresType (t : String) : Except String PostgresVariant :=
  if t = "postgres-instance" then Except.ok PostgresVariant.fixedInstance
  else if t = "postgres-serverless-2" then Except.ok PostgresVariant.serverless2
  else Except.error ("Unknown postgres database type " ++ t)

/-- One resource-level side effect of the orchestrator, in source order.
Parameter publications record their key; the published values are
late-bound CDK tokens and are not tracked. -/
inductive Step
  | secretCreated (secretName : Option String)
  | databaseCreated (variant : PostgresVariant) (databaseName : String)
  | parameterPublished (key : String)
  | edgeDbSecretCreated (secretName : String)
  | edgeDbServiceCreated
  | edgeDbLoadBalancerProtocolCreated (tcpPassthroughPort : Nat)
  | edgeDbLoadBalancerUiCreated (hostedPort : Nat)
deriving DecidableEq, Repr

/-- The key of a parameter-publication step. -/
def stepParameterKey : Step → Option String
  | Step.parameterPublished k => some k
  | _ => none

/-- All parameter keys published in a trace. -/
def publishedKeys (steps : List Step) : List String :=
  steps.filterMap stepParameterKey

/-- Whether a step creates an EdgeDB-layer resource (secret, service or
load balancer). -/
def Step.isEdgeDbResource : Step → Bool
  | Step.edgeDbSecretCreated _ => true
  | Step.edgeDbServiceCreated => true
  | Step.edgeDbLoadBalancerProtocolCreated _ => true
  | Step.edgeDbLoadBalancerUiCreated _ => true
  | _ => false

/-- Whether a step creates a base database. -/
def Step.isDatabaseResource : Step → Bool
  | Step.databaseCreated _ _ => true
  | _ => false

/-- Context shared across all databases of one pass: the stack id, the
secrets prefix and whether a certificate / hosted zone were set up
(`props.dns` present, lines 315-343). -/
structure StackContext where
  stackId : String
  secretsPrefixVal : String
  hasCert : Bool
  hasZone : Bool
deriving DecidableEq, Repr

/-- The error message of the name validation (line 348). -/
def nameValidationError (name : String) : String :=
  "The database name " ++ name ++
    " doesn't meet the limited list of allowed characters (the name is used in SSM etc)"

/-- The error message of the EdgeDB UI precondition (line 474). -/
def edgeDbUiPreconditionError : String :=
  "If the UI is going to be switched on for EdgeDb then a certificate and hosted zone also needs to be specified"

/-- The fault of `cdkIdSafeDbName[0].toUpperCase()` on an empty string. -/
def emptyCamelCaseFault : String :=
  "TypeError: Cannot read properties of undefined (reading 'toUpperCase')"

/-- One iteration of the orchestrator's database loop (lines 346-546),
as the trace of resource steps emitted before the loop body either
completes (`none`) or throws (`some message`). -/
def processDatabase (ctx : StackContext) (cfg : DatabaseConfig) :
    List Step × Option String :=
  if !regexTestDbName cfg.name then
    ([], some (nameValidationError cfg.name))
  else
    match cdkIdSafeDbNameOf cfg.name with
    | none => ([], some emptyCamelCaseFault)
    | some safeName =>
      let secretStep := Step.secretCreated
        (if ctx.secretsPrefixVal.isEmpty then none
         else some (ctx.secretsPrefixVal ++ safeName ++ "Rds"))
      match dispatchPostgresType cfg.postgresType with
      | Except.error e => ([secretStep], some e)
      | Except.ok v =>
        let baseSteps :=
          [secretStep, Step.databaseCreated v cfg.name] ++
            (baseParameterKeys ctx.stackId cfg.name).map Step.parameterPublished
        match cfg.edgeDb with
        | none => (baseSteps, none)
        | some e =>
          if e.makePubliclyReachable.isSome && (!ctx.hasCert || !ctx.hasZone) then
            (baseSteps, some edgeDbUiPreconditionError)
          else
            let uiSteps :=
              match e.makePubliclyReachable with
              | some pub => [Step.edgeDbLoadBalancerUiCreated (resolveUiHostedPort pub.uiPort)]
              | none => []
            let edgeSteps :=
              [Step.edgeDbSecretCreated (ctx.secretsPrefixVal ++ safeName ++ "EdgeDb"),
               Step.edgeDbServiceCreated,
               Step.edgeDbLoadBalancerProtocolCreated (resolveTcpPassthroughPort e.dbPort)] ++
                uiSteps ++
                (edgeDbParameterKeys ctx.stackId cfg.name).map Step.parameterPublished
            (baseSteps ++ edgeSteps, none)

/-- The orchestrator's loop over `props.databases`: sequential, aborting
the whole pass at the first thrown error. -/
def processStack (ctx : StackContext) : List DatabaseConfig → List Step × Option String
  | [] => ([], none)
  | cfg :: rest =>
    match processDatabase ctx cfg with
    | (s, some err) => (s, some err)
    | (s, none) =>
      match processStack ctx rest with
      | (s2, e2) => (s ++ s2, e2)

/-! ### Concrete fixtures used in witnesses and counterexamples -/

/-- A stack context without a DNS zone / certificate. -/
def ctxNoDns : StackContext := ⟨"infra", "elsa/", false, false⟩

/-- A stack context with a DNS zone and certificate present. -/
def ctxWithDns : StackContext := ⟨"infra", "elsa/", true, true⟩

/-- A database config whose name contains a space. -/
def cfgSpace : DatabaseConfig :=
  ⟨"a b", "admin", "postgres-instance", none, none, none, none⟩

/-- The spec's example config: `{name: "analytics", postgresType: instance,
adminUser: "admin"}` with no `edgeDb`. -/
def cfgAnalytics : DatabaseConfig :=
  ⟨"analytics", "admin", "postgres-instance", none, none, none, none⟩

/-- The analytics config with an internal-only EdgeDB layer. -/
def cfgAnalyticsEdge : DatabaseConfig :=
  ⟨"analytics", "admin", "postgres-instance", none, none, none,
    some ⟨"4", none, none, none, none⟩⟩

/-- The analytics config with a publicly reachable EdgeDB UI. -/
def cfgAnalyticsEdgePublic : DatabaseConfig :=
  ⟨"analytics", "admin", "postgres-instance", none, none, none,
    some ⟨"4", none, none, none, some ⟨none, none⟩⟩⟩

/-- A second config with a different name, for the key-uniqueness witness. -/
def cfgReportsEdge : DatabaseConfig :=
  ⟨"reports", "admin", "postgres-serverless-2", none, none, none,
    some ⟨"4", none, none, some 9999, none⟩⟩

/-- A config carrying the spec's enum literal `serverless-2` as its
`postgresType` — not one of the values the switch recognizes. -/
def cfgSpecEnumLiteral : DatabaseConfig :=
  ⟨"analytics", "admin", "serverless-2", none, none, none, none⟩

/-- Instance-database props: publicly reachable, destroy-on-remove, with a
storage override.  Endpoint attributes and secret tokens are concrete
stand-ins for the late-bound CDK values. -/
def propsInstPub : InstanceBaseDatabaseProps :=
  ⟨"analytics", "admin", some true, some true, some 50, "userTok", "passTok",
    "db.internal", 5432⟩

/-- Instance-database props with every optional field absent. -/
def propsInstPriv : InstanceBaseDatabaseProps :=
  ⟨"analytics", "admin", none, none, none, "userTok", "passTok",
    "db.internal", 5432⟩

/-! ## Helper lemmas on characters -/

theorem charToNat_ofNat_of_lt (n : Nat) (h : n < 55296) : (Char.ofNat n).toNat = n := by
  have hv : n.isValidChar := Or.inl h
  simp only [Char.ofNat, dif_pos hv, Char.ofNatAux, Char.toNat]
  simp [UInt32.toNat, BitVec.ofNatLt]

theorem isAsciiUpperCh_iff (c : Char) :
    isAsciiUpperCh c = true ↔ 65 ≤ c.toNat ∧ c.toNat ≤ 90 := by
  simp [isAsciiUpperCh]

theorem isAsciiLowerCh_iff (c : Char) :
    isAsciiLowerCh c = true ↔ 97 ≤ c.toNat ∧ c.toNat ≤ 122 := by
  simp [isAsciiLowerCh]

theorem isAsciiDigitCh_iff (c : Char) :
    isAsciiDigitCh c = true ↔ 48 ≤ c.toNat ∧ c.toNat ≤ 57 := by
  simp [isAsciiDigitCh]

theorem toLower_toNat_of_upper (c : Char) (h : isAsciiUpperCh c = true) :
    c.toLower.toNat = c.toNat + 32 := by
  rw [isAsciiUpperCh_iff] at h
  rw [show c.toLower = Char.ofNat (c.toNat + 32) by simp [Char.toLower, h]]
  exact charToNat_ofNat_of_lt _ (by omega)

theorem toLower_eq_self_of_not_upper (c : Char) (h : isAsciiUpperCh c = false) :
    c.toLower = c := by
  rw [Bool.eq_false_iff, Ne, isAsciiUpperCh_iff] at h
  simp only [Char.toLower]
  split
  · exact absurd (by omega) h
  · rfl

theorem toUpper_toNat_of_lower (c : Char) (h : isAsciiLowerCh c = true) :
    c.toUpper.toNat = c.toNat - 32 := by
  rw [isAsciiLowerCh_iff] at h
  rw [show c.toUpper = Char.ofNat (c.toNat - 32) by simp [Char.toUpper, h]]
  exact charToNat_ofNat_of_lt _ (by omega)

theorem toUpper_eq_self_of_not_lower (c : Char) (h : isAsciiLowerCh c = false) :
    c.toUpper = c := by
  rw [Bool.eq_false_iff, Ne, isAsciiLowerCh_iff] at h
  simp only [Char.toUpper]
  split
  · exact absurd (by omega) h
  · rfl

/-- For an ASCII letter, lowercasing then uppercasing yields an uppercase
ASCII letter. -/
theorem isAsciiUpperCh_toUpper_toLower (c : Char) (h : isAsciiLetterCh c = true) :
    isAsciiUpperCh (c.toLower.toUpper) = true := by
  rw [isAsciiLetterCh, Bool.or_eq_true] at h
  rcases h with h | h
  · have h1 := toLower_toNat_of_upper c h
    rw [isAsciiUpperCh_iff] at h
    have h2 : isAsciiLowerCh c.toLower = true := by
      rw [isAsciiLowerCh_iff, h1]; omega
    have h3 := toUpper_toNat_of_lower _ h2
    rw [isAsciiUpperCh_iff, h3, h1]
    omega
  · have h0 : isAsciiUpperCh c = false := by
      rw [isAsciiLowerCh_iff] at h
      rw [Bool.eq_false_iff, Ne, isAsciiUpperCh_iff]
      omega
    rw [toLower_eq_self_of_not_upper c h0]
    have h3 := toUpper_toNat_of_lower _ h
    rw [isAsciiLowerCh_iff] at h
    rw [isAsciiUpperCh_iff, h3]
    omega

/-- A digit is unchanged by `toLower` and `toUpper`. -/
theorem toUpper_toLower_eq_self_of_digit (c : Char) (h : isAsciiDigitCh c = true) :
    c.toLower.toUpper = c := by
  rw [isAsciiDigitCh_iff] at h
  have h1 : isAsciiUpperCh c = false := by
    rw [Bool.eq_false_iff, Ne, isAsciiUpperCh_iff]; omega
  have h2 : isAsciiLowerCh c = false := by
    rw [Bool.eq_false_iff, Ne, isAsciiLowerCh_iff]; omega
  rw [toLower_eq_self_of_not_upper c h1, toUpper_eq_self_of_not_lower c h2]

/-- Allowed name characters are not apostrophes (codes 39, 8217). -/
theorem allowed_not_apos (c : Char) (h : isAllowedNameChar c = true) :
    (c.toNat != 39 && c.toNat != 8217) = true := by
  simp only [isAllowedNameChar, isAsciiAlnumCh, isAsciiLetterCh, isAsciiUpperCh,
    isAsciiLowerCh, isAsciiDigitCh, Bool.or_eq_true, Bool.and_eq_true,
    decide_eq_true_eq, beq_iff_eq] at h
  simp only [Bool.and_eq_true, bne_iff_ne, Ne]
  omega

/-! ## Helper lemmas on the word scanner -/

theorem takeLetterWord_fst (c : Char) (rest : List Char) :
    ∃ t, (takeLetterWord c rest).1 = c :: t := by
  simp only [takeLetterWord, takeUpperRun]
  repeat' split
  all_goals exact ⟨_, rfl⟩

theorem takeDigitWord_fst (c : Char) (rest : List Char) :
    ∃ t, (takeDigitWord c rest).1 = c :: t := by
  simp only [takeDigitWord]
  repeat' split
  all_goals exact ⟨_, rfl⟩

theorem takeUpperRun_snd_length (c : Char) (rest : List Char) :
    (takeUpperRun c rest).2.length ≤ rest.length := by
  have hsplit : (rest.takeWhile isAsciiUpperCh).length +
      (rest.dropWhile isAsciiUpperCh).length = rest.length := by
    rw [← List.length_append, List.takeWhile_append_dropWhile]
  cases hlast : (rest.takeWhile isAsciiUpperCh).getLast? with
  | none =>
    cases hdrop : rest.dropWhile isAsciiUpperCh with
    | nil => simp [takeUpperRun, hlast, hdrop]
    | cons r rtail =>
      simp only [takeUpperRun, hlast, hdrop]
      rw [hdrop] at hsplit
      simp only [List.length_cons] at hsplit ⊢
      omega
  | some u =>
    cases hdrop : rest.dropWhile isAsciiUpperCh with
    | nil => simp [takeUpperRun, hlast, hdrop]
    | cons r rtail =>
      have hne : rest.takeWhile isAsciiUpperCh ≠ [] := by
        intro h0
        rw [h0] at hlast
        simp at hlast
      have hpos : 0 < (rest.takeWhile isAsciiUpperCh).length :=
        List.length_pos.mpr hne
      rw [hdrop] at hsplit
      simp only [takeUpperRun, hlast, hdrop]
      split
      · simp only [List.length_cons] at hsplit ⊢
        omega
      · simp only [List.length_cons] at hsplit ⊢
        omega

theorem takeLetterWord_snd_length (c : Char) (rest : List Char) :
    (takeLetterWord c rest).2.length ≤ rest.length := by
  simp only [takeLetterWord]
  split
  · exact (List.dropWhile_sublist _).length_le
  · split
    · split
      · exact (List.dropWhile_sublist _).length_le
      · exact takeUpperRun_snd_length c _
    · simp

theorem takeDigitWord_snd_length (c : Char) (rest : List Char) :
    (takeDigitWord c rest).2.length ≤ rest.length := by
  have hle : (rest.dropWhile isAsciiDigitCh).length ≤ rest.length :=
    (List.dropWhile_sublist _).length_le
  cases hdrop : rest.dropWhile isAsciiDigitCh with
  | nil => simp [takeDigitWord, hdrop]
  | cons a tl =>
    rw [hdrop] at hle
    cases tl with
    | nil => simpa [takeDigitWord, hdrop] using hle
    | cons b r3 =>
      simp only [takeDigitWord, hdrop]
      simp only [List.length_cons] at hle
      split
      · simp only [List.length_cons]
        omega
      · split
        · simp only [List.length_cons]
          omega
        · simp only [List.length_cons]
          omega

theorem unicodeWordsAux_nil_of_no_alnum (fuel : Nat) :
    ∀ l : List Char, (∀ c ∈ l, isAsciiAlnumCh c = false) →
      unicodeWordsAux fuel l = [] := by
  induction fuel with
  | zero => intro l _; cases l <;> rfl
  | succ fuel ih =>
    intro l h
    cases l with
    | nil => rfl
    | cons c rest =>
      have hc : isAsciiAlnumCh c = false := h c (List.mem_cons_self c rest)
      rw [isAsciiAlnumCh, Bool.or_eq_false_iff] at hc
      simp only [unicodeWordsAux, hc.1, hc.2, Bool.false_eq_true, if_false]
      exact ih rest fun x hx => h x (List.mem_cons_of_mem c hx)

theorem unicodeWordsAux_head (fuel : Nat) :
    ∀ (l : List Char) (c : Char), l.length ≤ fuel →
      l.find? isAsciiAlnumCh = some c →
      ∃ t ws, unicodeWordsAux fuel l = (c :: t) :: ws := by
  induction fuel with
  | zero =>
    intro l c hl hf
    rw [List.eq_nil_of_length_eq_zero (Nat.le_zero.mp hl)] at hf
    simp at hf
  | succ fuel ih =>
    intro l c hl hf
    cases l with
    | nil => simp at hf
    | cons c0 rest =>
      by_cases hletter : isAsciiLetterCh c0 = true
      · have halnum : isAsciiAlnumCh c0 = true := by
          rw [isAsciiAlnumCh, hletter, Bool.true_or]
        rw [List.find?_cons_of_pos rest halnum] at hf
        injection hf with hc
        subst hc
        obtain ⟨t, ht⟩ := takeLetterWord_fst c0 rest
        exact ⟨t, unicodeWordsAux fuel (takeLetterWord c0 rest).2, by
          simp only [unicodeWordsAux, hletter, if_true, ht]⟩
      · by_cases hdigit : isAsciiDigitCh c0 = true
        · have halnum : isAsciiAlnumCh c0 = true := by
            rw [isAsciiAlnumCh, hdigit, Bool.or_true]
          rw [List.find?_cons_of_pos rest halnum] at hf
          injection hf with hc
          subst hc
          obtain ⟨t, ht⟩ := takeDigitWord_fst c0 rest
          exact ⟨t, unicodeWordsAux fuel (takeDigitWord c0 rest).2, by
            simp only [unicodeWordsAux, hletter, hdigit, Bool.false_eq_true,
              if_false, if_true, ht]⟩
        · have halnum : ¬ isAsciiAlnumCh c0 = true := by
            simp only [isAsciiAlnumCh, Bool.or_eq_true]
            rintro (h | h)
            · exact hletter h
            · exact hdigit h
          rw [List.find?_cons_of_neg rest halnum] at hf
          have hl' : rest.length ≤ fuel := by
            simp only [List.length_cons] at hl
            omega
          obtain ⟨t, ws, hw⟩ := ih rest c hl' hf
          refine ⟨t, ws, ?_⟩
          rw [Bool.not_eq_true] at hletter
          have hdigit' : isAsciiDigitCh c0 = false := Bool.not_eq_true _ |>.mp hdigit
          simp only [unicodeWordsAux, hletter, hdigit', Bool.false_eq_true, if_false]
          exact hw

/-! ## Helper lemmas on `lodashCamelCase` -/

/-- Names matching the validation charset contain no apostrophes, so the
apostrophe filter of `camelCase` leaves them unchanged. -/
theorem filter_apos_of_matches (name : String) (h : matchesNamePattern name = true) :
    name.data.filter (fun c => c.toNat != 39 && c.toNat != 8217) = name.data := by
  rw [List.filter_eq_self]
  intro a ha
  apply allowed_not_apos
  rw [matchesNamePattern, Bool.and_eq_true, List.all_eq_true] at h
  exact h.2 a ha

theorem lodashCamelCase_data_head (name : String) (c : Char)
    (hclean : name.data.filter (fun c => c.toNat != 39 && c.toNat != 8217) = name.data)
    (hf : name.data.find? isAsciiAlnumCh = some c) :
    ∃ t, (lodashCamelCase name).data = c.toLower :: t := by
  obtain ⟨t, ws, hw⟩ :=
    unicodeWordsAux_head name.data.length name.data c (Nat.le_refl _) hf
  simp only [lodashCamelCase, lodashWords, hclean, hw]
  exact ⟨_, rfl⟩

theorem lodashCamelCase_of_no_alnum (name : String)
    (hclean : name.data.filter (fun c => c.toNat != 39 && c.toNat != 8217) = name.data)
    (h : ∀ c ∈ name.data, isAsciiAlnumCh c = false) :
    lodashCamelCase name = "" := by
  simp only [lodashCamelCase, lodashWords, hclean,
    unicodeWordsAux_nil_of_no_alnum name.data.length name.data h]

/-! ## Claim theorems: C1 and C2 -/

/-- **C1** (code bug): the claim states that every `DatabaseConfig` whose
name contains a character outside `[a-zA-Z0-9_.]` makes the orchestrator
throw before anything is created.  The source's test
`/[a-zA-Z0-9_.]+/.test(name)` is unanchored, so the name `"a b"` — which
contains a space and hence violates the claimed pattern — passes
validation and the orchestrator proceeds to create the secret, the
database and all seven parameters for it. -/
theorem c1_unanchored_name_validation :
    regexTestDbName "a b" = true ∧
    matchesNamePattern "a b" = false ∧
    (processDatabase ctxNoDns cfgSpace).2 = none ∧
    (processDatabase ctxNoDns cfgSpace).1 ≠ [] := by
  decide

/-- **C2** counterexample: the name `"..."` matches `[a-zA-Z0-9_.]+`, yet
lodash's `camelCase` maps it to the empty string, so the derivation
`cdkIdSafeDbName[0].toUpperCase()` faults (modelled as `none`) — refuting
the claim that the derived identifier is always non-empty and that
deriving it never faults. -/
theorem c2_counterexample_dots_name :
    matchesNamePattern "..." = true ∧ cdkIdSafeDbNameOf "..." = none := by
  decide

/-- **C2** (amended): for every database name matching `[a-zA-Z0-9_.]+`
that contains at least one letter or digit, the derivation succeeds and
yields a non-empty identifier whose first character is the uppercased
(lower-cased-then-uppercased) first letter-or-digit of the name; the
identifier begins with an uppercase letter whenever that first
letter-or-digit is a letter (a leading digit is kept verbatim).  For
matching names with no letter or digit (only dots and underscores) the
derivation faults. -/
theorem c2_amended_identifier_derivation (name : String)
    (hpat : matchesNamePattern name = true) :
    (∀ c : Char, name.data.find? isAsciiAlnumCh = some c →
      ∃ s, cdkIdSafeDbNameOf name = some s ∧ s ≠ "" ∧
        s.data.head? = some (c.toLower.toUpper) ∧
        (isAsciiLetterCh c = true → isAsciiUpperCh (c.toLower.toUpper) = true) ∧
        (isAsciiDigitCh c = true → s.data.head? = some c)) ∧
    (name.data.find? isAsciiAlnumCh = none → cdkIdSafeDbNameOf name = none) := by
  have hclean := filter_apos_of_matches name hpat
  constructor
  · intro c hf
    obtain ⟨t, ht⟩ := lodashCamelCase_data_head name c hclean hf
    refine ⟨⟨c.toLower.toUpper :: t⟩, ?_, ?_, rfl, ?_, ?_⟩
    · simp only [cdkIdSafeDbNameOf, ht]
    · intro h0
      have : (String.mk (c.toLower.toUpper :: t)).data = ("" : String).data :=
        congrArg String.data h0
      simp at this
    · exact isAsciiUpperCh_toUpper_toLower c
    · intro hd
      rw [toUpper_toLower_eq_self_of_digit c hd]
      rfl
  · intro hf
    have hnone : ∀ c ∈ name.data, isAsciiAlnumCh c = false := by
      intro x hx
      have := List.find?_eq_none.mp hf x hx
      exact Bool.not_eq_true _ |>.mp this
    have hempty := lodashCamelCase_of_no_alnum name hclean hnone
    simp only [cdkIdSafeDbNameOf, hempty]

/-- **C2** witness: the amended theorem applied to the name `elsa_data`,
whose first letter-or-digit is the letter `e`. -/
theorem c2_identifier_witness :
    ∃ s, cdkIdSafeDbNameOf "elsa_data" = some s ∧ s ≠ "" ∧
      s.data.head? = some ('e'.toLower.toUpper) ∧
      (isAsciiLetterCh 'e' = true → isAsciiUpperCh ('e'.toLower.toUpper) = true) ∧
      (isAsciiDigitCh 'e' = true → s.data.head? = some 'e') :=
  (c2_amended_identifier_derivation "elsa_data" (by decide)).1 'e' (by decide)

/-! ## Claim theorems: C3, C6, C9, C10 -/

/-- **C3**: the port suffix of every constructed DSN/URL is rendered if
and only if the port differs from the scheme's declared default: both
base-database postgres DSNs always contain `:<port>` (5432 is never
elided), the EdgeDB DSN carries `:<port>` exactly when the TCP
pass-through port is not 5656, and the UI URL carries `:<port>` exactly
when the hosted port is not 443. -/
theorem c3_port_elision (props : InstanceBaseDatabaseProps) (u dns : String)
    (p hp : Nat) :
    (":" ++ toString props.endpointPort).data <:+:
      (instanceBaseDatabase props).dsnNoPassword.data ∧
    (":" ++ toString props.endpointPort).data <:+:
      (instanceBaseDatabase props).dsnWithTokens.data ∧
    (p = 5656 → edgeDbDsn u dns p = "edgedb://" ++ u ++ "@" ++ dns) ∧
    (p ≠ 5656 → edgeDbDsn u dns p = "edgedb://" ++ u ++ "@" ++ dns ++ ":" ++ toString p) ∧
    (hp = 443 → edgeDbUiUrl dns hp = "https://" ++ dns ++ "/ui") ∧
    (hp ≠ 443 → edgeDbUiUrl dns hp = "https://" ++ dns ++ ":" ++ toString hp ++ "/ui") := by
  refine ⟨?_, ?_, ?_, ?_, ?_, ?_⟩
  · refine ⟨("postgres://" ++ props.databaseAdminUser ++ "@" ++ props.endpointHostname).data,
      ("/" ++ props.databaseName).data, ?_⟩
    simp [instanceBaseDatabase, String.data_append]
  · refine ⟨("postgres://" ++ props.secretUsernameToken ++ ":" ++ props.secretPasswordToken ++
      "@" ++ props.endpointHostname).data, ("/" ++ props.databaseName).data, ?_⟩
    simp [instanceBaseDatabase, String.data_append]
  · intro h
    subst h
    simp [edgeDbDsn, edgeDbPortString]
  · intro h
    simp only [edgeDbDsn, edgeDbPortString, bne_iff_ne, Ne, h, not_false_eq_true,
      if_true, String.append_assoc]
  · intro h
    subst h
    simp [edgeDbUiUrl, tlsPortString]
  · intro h
    simp only [edgeDbUiUrl, tlsPortString, bne_iff_ne, Ne, h, not_false_eq_true,
      if_true, String.append_assoc]

/-- **C3** witness: the elision behavior at the concrete ports 5656, 9999,
443 and 8443. -/
theorem c3_port_elision_witness :
    edgeDbDsn "elsa_superuser" "lb.example" 5656 = "edgedb://elsa_superuser@lb.example" ∧
    edgeDbDsn "elsa_superuser" "lb.example" 9999 = "edgedb://elsa_superuser@lb.example:9999" ∧
    edgeDbUiUrl "ui.example" 443 = "https://ui.example/ui" ∧
    edgeDbUiUrl "ui.example" 8443 = "https://ui.example:8443/ui" := by
  have h := c3_port_elision propsInstPriv "elsa_superuser" "lb.example" 5656 443
  have h2 := c3_port_elision propsInstPriv "elsa_superuser" "lb.example" 9999 8443
  have h3 := c3_port_elision propsInstPriv "elsa_superuser" "ui.example" 5656 443
  have h4 := c3_port_elision propsInstPriv "elsa_superuser" "ui.example" 9999 8443
  exact ⟨(h.2.2.1 rfl).trans (by decide),
    (h2.2.2.2.1 (by decide)).trans (by decide),
    (h3.2.2.2.2.1 rfl).trans (by decide),
    (h4.2.2.2.2.2 (by decide)).trans (by decide)⟩

/-- **C6**: the security group of a base database has no default outbound
allowance (IPv4 or IPv6) and exactly one ingress rule on the database's
port, sourced from any IPv4 address when `makePubliclyReachable` is true
and from the group itself when it is false or absent. -/
theorem c6_security_group_rules (props : InstanceBaseDatabaseProps) :
    (instanceBaseDatabase props).securityGroup.allowAllOutbound = false ∧
    (instanceBaseDatabase props).securityGroup.allowAllIpv6Outbound = false ∧
    (instanceBaseDatabase props).securityGroup.ingressRules.length = 1 ∧
    (props.makePubliclyReachable = some true →
      (instanceBaseDatabase props).securityGroup.ingressRules =
        [⟨IngressPeer.anyIpv4, props.endpointPort⟩]) ∧
    (props.makePubliclyReachable = some false ∨ props.makePubliclyReachable = none →
      (instanceBaseDatabase props).securityGroup.ingressRules =
        [⟨IngressPeer.selfGroup, props.endpointPort⟩]) := by
  refine ⟨rfl, rfl, rfl, ?_, ?_⟩
  · intro h
    simp [instanceBaseDatabase, truthy, h]
  · rintro (h | h) <;> simp [instanceBaseDatabase, truthy, h]

/-- **C6** witness: the two ingress topologies at concrete props. -/
theorem c6_security_group_witness :
    (instanceBaseDatabase propsInstPub).securityGroup.ingressRules =
      [⟨IngressPeer.anyIpv4, 5432⟩] ∧
    (instanceBaseDatabase propsInstPriv).securityGroup.ingressRules =
      [⟨IngressPeer.selfGroup, 5432⟩] :=
  ⟨(c6_security_group_rules propsInstPub).2.2.2.1 rfl,
   (c6_security_group_rules propsInstPriv).2.2.2.2 (Or.inr rfl)⟩

/-- **C9**: instance storage sizing is `overrideAllocatedStorage` when
given and 20 GiB otherwise, with 100 GiB maximum; teardown is
destroy-and-wipe (RemovalPolicy.DESTROY plus deletion of automated
backups) when `destroyOnRemove` is true and snapshot-based retention
otherwise. -/
theorem c9_storage_and_teardown (props : InstanceBaseDatabaseProps) :
    (∀ n, props.overrideAllocatedStorage = some n →
      (instanceBaseDatabase props).allocatedStorage = n) ∧
    (props.overrideAllocatedStorage = none →
      (instanceBaseDatabase props).allocatedStorage = 20) ∧
    (instanceBaseDatabase props).maxAllocatedStorage = 100 ∧
    (props.destroyOnRemove = some true →
      (instanceBaseDatabase props).removalPolicy = RemovalPolicyM.destroy ∧
      (instanceBaseDatabase props).deleteAutomatedBackups = some true) ∧
    (props.destroyOnRemove = some false ∨ props.destroyOnRemove = none →
      (instanceBaseDatabase props).removalPolicy = RemovalPolicyM.snapshot ∧
      (instanceBaseDatabase props).deleteAutomatedBackups ≠ some true) := by
  refine ⟨?_, ?_, rfl, ?_, ?_⟩
  · intro n h
    simp [instanceBaseDatabase, h]
  · intro h
    simp [instanceBaseDatabase, h]
  · intro h
    refine ⟨?_, ?_⟩ <;> simp [instanceBaseDatabase, truthy, h]
  · rintro (h | h) <;> constructor <;> simp [instanceBaseDatabase, truthy, h]

/-- **C9** witness: storage and teardown at concrete props (override 50
with destroy-on-remove, and all-absent options). -/
theorem c9_storage_and_teardown_witness :
    (instanceBaseDatabase propsInstPub).allocatedStorage = 50 ∧
    (instanceBaseDatabase propsInstPub).removalPolicy = RemovalPolicyM.destroy ∧
    (instanceBaseDatabase propsInstPriv).allocatedStorage = 20 ∧
    (instanceBaseDatabase propsInstPriv).removalPolicy = RemovalPolicyM.snapshot :=
  ⟨(c9_storage_and_teardown propsInstPub).1 50 rfl,
   ((c9_storage_and_teardown propsInstPub).2.2.2.1 rfl).1,
   (c9_storage_and_teardown propsInstPriv).2.1 rfl,
   ((c9_storage_and_teardown propsInstPriv).2.2.2.2 (Or.inr rfl)).1⟩

/-- **C10**: the two defaulting operators differ: the protocol
pass-through port `dbPort || 5656` replaces any falsy value (an explicit
0 included) by 5656, while the UI hosted port `uiPort ?? 443` falls back
only for a missing value and keeps an explicit 0. -/
theorem c10_port_defaulting_operators (p : Nat) (hp : p ≠ 0) :
    resolveTcpPassthroughPort none = 5656 ∧
    resolveTcpPassthroughPort (some 0) = 5656 ∧
    resolveTcpPassthroughPort (some p) = p ∧
    resolveUiHostedPort none = 443 ∧
    resolveUiHostedPort (some 0) = 0 ∧
    resolveUiHostedPort (some p) = p := by
  refine ⟨rfl, rfl, ?_, rfl, rfl, rfl⟩
  simp [resolveTcpPassthroughPort, hp]

/-- **C10** witness: the defaulting operators at the concrete port 9999. -/
theorem c10_port_defaulting_witness :
    resolveTcpPassthroughPort (some 9999) = 9999 ∧
    resolveUiHostedPort (some 9999) = 9999 :=
  ⟨(c10_port_defaulting_operators 9999 (by decide)).2.2.1,
   (c10_port_defaulting_operators 9999 (by decide)).2.2.2.2.2⟩

/-- None of the base steps (secret, database, base parameters) is an
EdgeDB-layer resource. -/
theorem baseSteps_no_edgeDb (sec : Option String) (v : PostgresVariant)
    (nm : String) (ks : List String) :
    ∀ s ∈ [Step.secretCreated sec, Step.databaseCreated v nm] ++
      ks.map Step.parameterPublished, s.isEdgeDbResource = false := by
  intro s hsmem
  rcases List.mem_append.mp hsmem with h | h
  · rcases List.mem_cons.mp h with h1 | h1
    · rw [h1]; rfl
    · rcases List.mem_cons.mp h1 with h2 | h2
      · rw [h2]; rfl
      · exact absurd h2 (List.not_mem_nil s)
  · obtain ⟨k, _, hk⟩ := List.mem_map.mp h
    rw [← hk]
    rfl

/-! ## Claim theorems: C7 and C5 -/

/-- **C7** counterexample: the claim names the enum values `instance` and
`serverless-2`, but the switch recognizes only `postgres-instance` and
`postgres-serverless-2`; both claimed literals hit the default branch and
throw instead of dispatching. -/
theorem c7_counterexample_enum_literals :
    dispatchPostgresType "instance" =
      Except.error "Unknown postgres database type instance" ∧
    dispatchPostgresType "serverless-2" =
      Except.error "Unknown postgres database type serverless-2" :=
  ⟨rfl, rfl⟩

/-- **C7** (amended): base-database construction dispatches on
`config.postgresType` between exactly the two enum values
`postgres-instance` (fixed-capacity instance) and `postgres-serverless-2`
(auto-scaling serverless); every other value throws a construction-time
error naming the unknown type, before any database resource is created. -/
theorem c7_postgres_type_dispatch (ctx : StackContext) (cfg : DatabaseConfig)
    (t : String) :
    dispatchPostgresType "postgres-instance" = Except.ok PostgresVariant.fixedInstance ∧
    dispatchPostgresType "postgres-serverless-2" = Except.ok PostgresVariant.serverless2 ∧
    (t ≠ "postgres-instance" → t ≠ "postgres-serverless-2" →
      dispatchPostgresType t = Except.error ("Unknown postgres database type " ++ t)) ∧
    (cfg.postgresType ≠ "postgres-instance" → cfg.postgresType ≠ "postgres-serverless-2" →
      ∀ s ∈ (processDatabase ctx cfg).1, s.isDatabaseResource = false) := by
  refine ⟨rfl, rfl, ?_, ?_⟩
  · intro h1 h2
    simp [dispatchPostgresType, h1, h2]
  · intro h1 h2 s hsmem
    rw [processDatabase] at hsmem
    by_cases hval : !regexTestDbName cfg.name
    · rw [if_pos hval] at hsmem
      simp at hsmem
    · rw [if_neg hval] at hsmem
      cases hname : cdkIdSafeDbNameOf cfg.name with
      | none =>
        rw [hname] at hsmem
        simp at hsmem
      | some safeName =>
        rw [hname] at hsmem
        have hdisp : dispatchPostgresType cfg.postgresType =
            Except.error ("Unknown postgres database type " ++ cfg.postgresType) := by
          simp [dispatchPostgresType, h1, h2]
        rw [hdisp] at hsmem
        simp only [List.mem_singleton] at hsmem
        rw [hsmem]
        rfl

/-- **C7** witness: the spec literal `serverless-2` is rejected with the
descriptive error and no database resource appears in the trace. -/
theorem c7_postgres_dispatch_witness :
    dispatchPostgresType "serverless-2" =
      Except.error ("Unknown postgres database type " ++ "serverless-2") ∧
    ∀ s ∈ (processDatabase ctxNoDns cfgSpecEnumLiteral).1, s.isDatabaseResource = false :=
  ⟨(c7_postgres_type_dispatch ctxNoDns cfgSpecEnumLiteral "serverless-2").2.2.1
      (by decide) (by decide),
   (c7_postgres_type_dispatch ctxNoDns cfgSpecEnumLiteral "serverless-2").2.2.2
      (by decide) (by decide)⟩

/-- **C5**: when an `edgeDb` sub-config requests `makePubliclyReachable`
and the certificate or the hosted zone is absent, the loop body throws
the descriptive error and no EdgeDB resource (secret, service, load
balancer) appears in the trace; when both are present, construction
succeeds, the UI load balancer is created, and every UI URL ends with the
path `/ui`. -/
theorem c5_edge_ui_preconditions (ctx : StackContext) (cfg : DatabaseConfig)
    (e : EdgeDbConfig) (v : PostgresVariant) (sn : String)
    (hr : regexTestDbName cfg.name = true)
    (hs : cdkIdSafeDbNameOf cfg.name = some sn)
    (hd : dispatchPostgresType cfg.postgresType = Except.ok v)
    (he : cfg.edgeDb = some e) :
    (e.makePubliclyReachable.isSome = true →
      (ctx.hasCert = false ∨ ctx.hasZone = false) →
      (processDatabase ctx cfg).2 = some edgeDbUiPreconditionError ∧
      ∀ s ∈ (processDatabase ctx cfg).1, s.isEdgeDbResource = false) ∧
    (ctx.hasCert = true → ctx.hasZone = true →
      (processDatabase ctx cfg).2 = none ∧
      ∀ pub, e.makePubliclyReachable = some pub →
        Step.edgeDbLoadBalancerUiCreated (resolveUiHostedPort pub.uiPort) ∈
          (processDatabase ctx cfg).1) ∧
    (∀ dns hp, "/ui".data <:+ (edgeDbUiUrl dns hp).data) := by
  have hproc : processDatabase ctx cfg =
      (if e.makePubliclyReachable.isSome && (!ctx.hasCert || !ctx.hasZone) then
        ([Step.secretCreated
            (if ctx.secretsPrefixVal.isEmpty then none
             else some (ctx.secretsPrefixVal ++ sn ++ "Rds")),
          Step.databaseCreated v cfg.name] ++
            (baseParameterKeys ctx.stackId cfg.name).map Step.parameterPublished,
         some edgeDbUiPreconditionError)
      else
        ([Step.secretCreated
            (if ctx.secretsPrefixVal.isEmpty then none
             else some (ctx.secretsPrefixVal ++ sn ++ "Rds")),
          Step.databaseCreated v cfg.name] ++
            (baseParameterKeys ctx.stackId cfg.name).map Step.parameterPublished ++
          ([Step.edgeDbSecretCreated (ctx.secretsPrefixVal ++ sn ++ "EdgeDb"),
            Step.edgeDbServiceCreated,
            Step.edgeDbLoadBalancerProtocolCreated (resolveTcpPassthroughPort e.dbPort)] ++
            (match e.makePubliclyReachable with
             | some pub => [Step.edgeDbLoadBalancerUiCreated (resolveUiHostedPort pub.uiPort)]
             | none => []) ++
            (edgeDbParameterKeys ctx.stackId cfg.name).map Step.parameterPublished),
         none)) := by
    rw [processDatabase, hr]
    simp only [Bool.not_true, Bool.false_eq_true, if_false, hs, hd, he]
  constructor
  · intro hpub hmiss
    have hcond : (e.makePubliclyReachable.isSome && (!ctx.hasCert || !ctx.hasZone)) = true := by
      rcases hmiss with h | h <;> rw [hpub, h] <;> simp
    rw [hproc, if_pos hcond]
    exact ⟨rfl, baseSteps_no_edgeDb _ _ _ _⟩
  · constructor
    · intro hcert hzone
      have hcond : (e.makePubliclyReachable.isSome && (!ctx.hasCert || !ctx.hasZone)) = false := by
        rw [hcert, hzone]
        simp
      rw [hproc, if_neg (by rw [hcond]; exact Bool.false_ne_true)]
      refine ⟨rfl, ?_⟩
      intro pub hpub
      rw [hpub]
      simp
    · intro dns hp
      refine ⟨("https://" ++ dns ++ tlsPortString hp).data, ?_⟩
      simp [edgeDbUiUrl, String.data_append]

/-- **C5** witness: the public-UI config fails without DNS context and
succeeds with it, creating the UI load balancer on port 443. -/
theorem c5_edge_ui_witness :
    (processDatabase ctxNoDns cfgAnalyticsEdgePublic).2 = some edgeDbUiPreconditionError ∧
    (processDatabase ctxWithDns cfgAnalyticsEdgePublic).2 = none ∧
    Step.edgeDbLoadBalancerUiCreated (resolveUiHostedPort none) ∈
      (processDatabase ctxWithDns cfgAnalyticsEdgePublic).1 ∧
    "/ui".data <:+ (edgeDbUiUrl "ui.example" 443).data := by
  refine ⟨?_, ?_, ?_, ?_⟩
  · exact ((c5_edge_ui_preconditions ctxNoDns cfgAnalyticsEdgePublic
      ⟨"4", none, none, none, some ⟨none, none⟩⟩ PostgresVariant.fixedInstance
      "Analytics" (by decide) (by decide) rfl rfl).1 rfl (Or.inl rfl)).1
  · exact ((c5_edge_ui_preconditions ctxWithDns cfgAnalyticsEdgePublic
      ⟨"4", none, none, none, some ⟨none, none⟩⟩ PostgresVariant.fixedInstance
      "Analytics" (by decide) (by decide) rfl rfl).2.1 rfl rfl).1
  · exact ((c5_edge_ui_preconditions ctxWithDns cfgAnalyticsEdgePublic
      ⟨"4", none, none, none, some ⟨none, none⟩⟩ PostgresVariant.fixedInstance
      "Analytics" (by decide) (by decide) rfl rfl).2.1 rfl rfl).2 ⟨none, none⟩ rfl
  · exact (c5_edge_ui_preconditions ctxWithDns cfgAnalyticsEdgePublic
      ⟨"4", none, none, none, some ⟨none, none⟩⟩ PostgresVariant.fixedInstance
      "Analytics" (by decide) (by decide) rfl rfl).2.2 "ui.example" 443

/-! ## Helper lemmas on published parameter keys -/

theorem publishedKeys_append (a b : List Step) :
    publishedKeys (a ++ b) = publishedKeys a ++ publishedKeys b :=
  List.filterMap_append a b stepParameterKey

theorem publishedKeys_map_published (ks : List String) :
    publishedKeys (ks.map Step.parameterPublished) = ks := by
  rw [publishedKeys, List.filterMap_map]
  exact List.filterMap_some ks

theorem publishedKeys_base_steps (sec : Option String) (v : PostgresVariant)
    (nm : String) (ks : List String) :
    publishedKeys ([Step.secretCreated sec, Step.databaseCreated v nm] ++
      ks.map Step.parameterPublished) = ks := by
  rw [publishedKeys_append, publishedKeys_map_published]
  rfl

/-! ## Claim theorems: C4 -/

/-- **C4** counterexample: for the spec's example config (name
`analytics`, no `edgeDb`), the published key set is not the claimed
six-field set — the code additionally publishes
`/<stackId>/Database/analytics/dsnWithPassword`. -/
theorem c4_counterexample_seventh_key :
    publishedKeys (processDatabase ctxNoDns cfgAnalytics).1 ≠
      ["dsnNoPassword", "hostname", "port", "adminUser", "adminPasswordSecretArn",
       "securityGroupId"].map (mkDatabaseParameterKey "infra" "analytics") ∧
    mkDatabaseParameterKey "infra" "analytics" "dsnWithPassword" ∈
      publishedKeys (processDatabase ctxNoDns cfgAnalytics).1 ∧
    mkDatabaseParameterKey "infra" "analytics" "dsnWithPassword" ∉
      ["dsnNoPassword", "hostname", "port", "adminUser", "adminPasswordSecretArn",
       "securityGroupId"].map (mkDatabaseParameterKey "infra" "analytics") := by
  decide

/-- **C4** (amended): for a `DatabaseConfig` with no `edgeDb` sub-config
(and a name/type the orchestrator accepts), the loop body completes and
publishes exactly the seven keys `/<stackId>/Database/<dbName>/<field>`
for dsnWithPassword, dsnNoPassword, hostname, port, adminUser,
adminPasswordSecretArn, securityGroupId — and no EdgeDB-specific keys. -/
theorem c4_published_keys_no_edgedb (ctx : StackContext) (cfg : DatabaseConfig)
    (v : PostgresVariant) (sn : String)
    (hr : regexTestDbName cfg.name = true)
    (hs : cdkIdSafeDbNameOf cfg.name = some sn)
    (hd : dispatchPostgresType cfg.postgresType = Except.ok v)
    (he : cfg.edgeDb = none) :
    (processDatabase ctx cfg).2 = none ∧
    publishedKeys (processDatabase ctx cfg).1 =
      [mkDatabaseParameterKey ctx.stackId cfg.name "dsnWithPassword",
       mkDatabaseParameterKey ctx.stackId cfg.name "dsnNoPassword",
       mkDatabaseParameterKey ctx.stackId cfg.name "hostname",
       mkDatabaseParameterKey ctx.stackId cfg.name "port",
       mkDatabaseParameterKey ctx.stackId cfg.name "adminUser",
       mkDatabaseParameterKey ctx.stackId cfg.name "adminPasswordSecretArn",
       mkDatabaseParameterKey ctx.stackId cfg.name "securityGroupId"] := by
  have hproc : processDatabase ctx cfg =
      ([Step.secretCreated
          (if ctx.secretsPrefixVal.isEmpty then none
           else some (ctx.secretsPrefixVal ++ sn ++ "Rds")),
        Step.databaseCreated v cfg.name] ++
          (baseParameterKeys ctx.stackId cfg.name).map Step.parameterPublished,
       none) := by
    rw [processDatabase, hr]
    simp only [Bool.not_true, Bool.false_eq_true, if_false, hs, hd, he]
  rw [hproc]
  refine ⟨rfl, ?_⟩
  rw [publishedKeys_base_steps]
  rfl

/-- **C4** witness: the amended theorem at the example config. -/
theorem c4_published_keys_witness :
    (processDatabase ctxNoDns cfgAnalytics).2 = none ∧
    publishedKeys (processDatabase ctxNoDns cfgAnalytics).1 =
      [mkDatabaseParameterKey "infra" "analytics" "dsnWithPassword",
       mkDatabaseParameterKey "infra" "analytics" "dsnNoPassword",
       mkDatabaseParameterKey "infra" "analytics" "hostname",
       mkDatabaseParameterKey "infra" "analytics" "port",
       mkDatabaseParameterKey "infra" "analytics" "adminUser",
       mkDatabaseParameterKey "infra" "analytics" "adminPasswordSecretArn",
       mkDatabaseParameterKey "infra" "analytics" "securityGroupId"] :=
  c4_published_keys_no_edgedb ctxNoDns cfgAnalytics PostgresVariant.fixedInstance
    "Analytics" (by decide) (by decide) rfl rfl

/-! ## Helper lemmas for key uniqueness (C8) -/

theorem takeWhile_all_append {α : Type} (p : α → Bool) :
    ∀ a : List α, (∀ x ∈ a, p x = true) → ∀ c : α, p c = false → ∀ r : List α,
      ((a ++ c :: r).takeWhile p = a ∧ (a ++ c :: r).dropWhile p = c :: r) := by
  intro a
  induction a with
  | nil =>
    intro _ c hc r
    constructor
    · simp [List.takeWhile_cons, hc]
    · simp [List.dropWhile_cons, hc]
  | cons x xs ih =>
    intro ha c hc r
    have hx : p x = true := ha x (List.mem_cons_self x xs)
    have hxs := ih (fun y hy => ha y (List.mem_cons_of_mem x hy)) c hc r
    constructor
    · simp only [List.cons_append, List.takeWhile_cons, hx, if_true, hxs.1]
    · simp only [List.cons_append, List.dropWhile_cons, hx, if_true, hxs.2]

/-- Cancellation around the last separator: if the parts after the
separator are separator-free, both decompositions agree. -/
theorem split_last_sep (a b c d : List Char)
    (hb : ∀ x ∈ b, x ≠ '/') (hd : ∀ x ∈ d, x ≠ '/')
    (h : a ++ '/' :: b = c ++ '/' :: d) : a = c ∧ b = d := by
  have hrev : b.reverse ++ '/' :: a.reverse = d.reverse ++ '/' :: c.reverse := by
    have h2 := congrArg List.reverse h
    simpa [List.reverse_append, List.append_assoc] using h2
  have pb : ∀ x ∈ b.reverse, (x != '/') = true := by
    intro x hx
    simpa using hb x (List.mem_reverse.mp hx)
  have pd : ∀ x ∈ d.reverse, (x != '/') = true := by
    intro x hx
    simpa using hd x (List.mem_reverse.mp hx)
  have h1 := takeWhile_all_append (fun x => x != '/') b.reverse pb '/' (by simp) a.reverse
  have h2 := takeWhile_all_append (fun x => x != '/') d.reverse pd '/' (by simp) c.reverse
  have hbrev : b.reverse = d.reverse := by
    rw [← h1.1, ← h2.1, hrev]
  have harev : '/' :: a.reverse = '/' :: c.reverse := by
    rw [← h1.2, ← h2.2, hrev]
  constructor
  · have h3 : a.reverse = c.reverse := by injection harev
    exact List.reverse_injective h3
  · exact List.reverse_injective hbrev

/-- Parameter-key injectivity: for one stack, equal keys force equal
database name and field, provided the fields contain no `/`. -/
theorem mkDatabaseParameterKey_inj (sid n1 f1 n2 f2 : String)
    (hf1 : ∀ x ∈ f1.data, x ≠ '/') (hf2 : ∀ x ∈ f2.data, x ≠ '/')
    (h : mkDatabaseParameterKey sid n1 f1 = mkDatabaseParameterKey sid n2 f2) :
    n1 = n2 ∧ f1 = f2 := by
  have hd := congrArg String.data h
  simp only [mkDatabaseParameterKey, String.data_append, List.append_assoc] at hd
  have hd2 := List.append_cancel_left (List.append_cancel_left
    (List.append_cancel_left hd))
  rw [List.singleton_append, List.singleton_append] at hd2
  obtain ⟨hn, hf⟩ := split_last_sep n1.data f1.data n2.data f2.data hf1 hf2 hd2
  exact ⟨String.ext hn, String.ext hf⟩

theorem allParameterFields_nodup : allParameterFields.Nodup := by
  decide

theorem allParameterFields_no_slash :
    ∀ f ∈ allParameterFields, ∀ x ∈ f.data, x ≠ '/' := by
  decide

/-- The full key list a single database can publish is duplicate-free. -/
theorem nodup_keys_one_db (sid nm : String) :
    (allParameterFields.map (mkDatabaseParameterKey sid nm)).Nodup :=
  List.Nodup.map_on
    (fun x hx y hy hxy =>
      (mkDatabaseParameterKey_inj sid nm x nm y
        (allParameterFields_no_slash x hx) (allParameterFields_no_slash y hy) hxy).2)
    allParameterFields_nodup

/-- Whatever the loop body publishes for one database is a sublist of
that database's full key list. -/
theorem processDatabase_keys_sublist (ctx : StackContext) (cfg : DatabaseConfig) :
    (publishedKeys (processDatabase ctx cfg).1).Sublist
      (allParameterFields.map (mkDatabaseParameterKey ctx.stackId cfg.name)) := by
  have hall : allParameterFields.map (mkDatabaseParameterKey ctx.stackId cfg.name) =
      baseParameterKeys ctx.stackId cfg.name ++
        edgeDbParameterKeys ctx.stackId cfg.name := by
    rw [allParameterFields, List.map_append]
    rfl
  by_cases hval0 : regexTestDbName cfg.name
  · cases hname : cdkIdSafeDbNameOf cfg.name with
    | none =>
      have hsteps : (processDatabase ctx cfg).1 = [] := by
        rw [processDatabase, hval0]
        simp only [Bool.not_true, Bool.false_eq_true, if_false, hname]
      rw [hsteps]
      exact List.nil_sublist _
    | some sn =>
      cases hdisp : dispatchPostgresType cfg.postgresType with
      | error e =>
        have hsteps : publishedKeys (processDatabase ctx cfg).1 = [] := by
          rw [processDatabase, hval0]
          simp only [Bool.not_true, Bool.false_eq_true, if_false, hname, hdisp]
          rfl
        rw [hsteps]
        exact List.nil_sublist _
      | ok v =>
        cases hedge : cfg.edgeDb with
        | none =>
          have hsteps : publishedKeys (processDatabase ctx cfg).1 =
              baseParameterKeys ctx.stackId cfg.name := by
            rw [processDatabase, hval0]
            simp only [Bool.not_true, Bool.false_eq_true, if_false, hname, hdisp, hedge]
            exact publishedKeys_base_steps _ _ _ _
          rw [hsteps, hall]
          exact List.sublist_append_left _ _
        | some e =>
          have huikeys : publishedKeys
              (match e.makePubliclyReachable with
               | some pub => [Step.edgeDbLoadBalancerUiCreated (resolveUiHostedPort pub.uiPort)]
               | none => []) = [] := by
            cases e.makePubliclyReachable <;> rfl
          by_cases hui : (e.makePubliclyReachable.isSome && (!ctx.hasCert || !ctx.hasZone)) = true
          · have hsteps : publishedKeys (processDatabase ctx cfg).1 =
                baseParameterKeys ctx.stackId cfg.name := by
              rw [processDatabase, hval0]
              simp only [Bool.not_true, Bool.false_eq_true, if_false, hname, hdisp, hedge,
                hui, if_true]
              exact publishedKeys_base_steps _ _ _ _
            rw [hsteps, hall]
            exact List.sublist_append_left _ _
          · have hsteps : publishedKeys (processDatabase ctx cfg).1 =
                baseParameterKeys ctx.stackId cfg.name ++
                  edgeDbParameterKeys ctx.stackId cfg.name := by
              rw [processDatabase, hval0]
              simp only [Bool.not_true, Bool.false_eq_true, if_false, hname, hdisp, hedge,
                Bool.not_eq_true _ |>.mp hui, if_false]
              rw [publishedKeys_append, publishedKeys_base_steps, publishedKeys_append,
                publishedKeys_append, huikeys, publishedKeys_map_published]
              rfl
            rw [hsteps, hall]
  · have hval : regexTestDbName cfg.name = false := Bool.not_eq_true _ |>.mp hval0
    have hsteps : (processDatabase ctx cfg).1 = [] := by
      rw [processDatabase, hval]
      simp only [Bool.not_false, if_true]
    rw [hsteps]
    exact List.nil_sublist _

/-- Every published key of one database is its stack/name key at one of
the known fields. -/
theorem processDatabase_key_mem (ctx : StackContext) (cfg : DatabaseConfig)
    (k : String) (h : k ∈ publishedKeys (processDatabase ctx cfg).1) :
    ∃ f ∈ allParameterFields, k = mkDatabaseParameterKey ctx.stackId cfg.name f := by
  have hk := (processDatabase_keys_sublist ctx cfg).subset h
  obtain ⟨f, hf, hfeq⟩ := List.mem_map.mp hk
  exact ⟨f, hf, hfeq.symm⟩

/-- Every key published by the whole pass comes from one of its configs. -/
theorem processStack_key_mem (ctx : StackContext) :
    ∀ (cfgs : List DatabaseConfig) (k : String),
      k ∈ publishedKeys (processStack ctx cfgs).1 →
      ∃ cfg ∈ cfgs, k ∈ publishedKeys (processDatabase ctx cfg).1 := by
  intro cfgs
  induction cfgs with
  | nil =>
    intro k hk
    simp [processStack, publishedKeys] at hk
  | cons cfg rest ih =>
    intro k hk
    rw [processStack] at hk
    cases hpd : processDatabase ctx cfg with
    | mk s e =>
      rw [hpd] at hk
      cases e with
      | some err =>
        exact ⟨cfg, List.mem_cons_self cfg rest, by rw [hpd]; exact hk⟩
      | none =>
        cases hps : processStack ctx rest with
        | mk s2 e2 =>
          rw [hps] at hk
          rw [show (publishedKeys ((s ++ s2, e2)).1) = publishedKeys s ++ publishedKeys s2
            from publishedKeys_append s s2] at hk
          rcases List.mem_append.mp hk with h | h
          · exact ⟨cfg, List.mem_cons_self cfg rest, by rw [hpd]; exact h⟩
          · obtain ⟨cfg2, hcfg2, hmem⟩ := ih k (by rw [hps]; exact h)
            exact ⟨cfg2, List.mem_cons_of_mem cfg hcfg2, hmem⟩

/-! ## Claim theorem: C8 -/

/-- **C8**: across one orchestrator pass over configs with pairwise
distinct names, the full set of published parameter keys (base-database
keys and EdgeDB keys) is pairwise distinct, because every key embeds the
per-database name. -/
theorem c8_parameter_keys_nodup (ctx : StackContext) (cfgs : List DatabaseConfig) :
    cfgs.Pairwise (fun a b => a.name ≠ b.name) →
    (publishedKeys (processStack ctx cfgs).1).Nodup := by
  induction cfgs with
  | nil =>
    intro _
    simp [processStack, publishedKeys]
  | cons cfg rest ih =>
    intro hnames
    rw [List.pairwise_cons] at hnames
    obtain ⟨hhead, hrest⟩ := hnames
    have hone : (publishedKeys (processDatabase ctx cfg).1).Nodup :=
      (processDatabase_keys_sublist ctx cfg).nodup
        (nodup_keys_one_db ctx.stackId cfg.name)
    cases hpd : processDatabase ctx cfg with
    | mk s e =>
      cases e with
      | some err =>
        rw [processStack, hpd]
        rw [hpd] at hone
        exact hone
      | none =>
        cases hps : processStack ctx rest with
        | mk s2 e2 =>
          rw [processStack, hpd, hps]
          rw [show (publishedKeys ((s ++ s2, e2)).1) = publishedKeys s ++ publishedKeys s2
            from publishedKeys_append s s2]
          rw [List.nodup_append]
          refine ⟨by rw [hpd] at hone; exact hone, ?_, ?_⟩
          · have h2 := ih hrest
            rw [hps] at h2
            exact h2
          · intro k hk1 hk2
            have h1 : k ∈ publishedKeys (processDatabase ctx cfg).1 := by
              rw [hpd]; exact hk1
            obtain ⟨f1, hf1, hk1eq⟩ := processDatabase_key_mem ctx cfg k h1
            have h2 : k ∈ publishedKeys (processStack ctx rest).1 := by
              rw [hps]; exact hk2
            obtain ⟨cfg2, hcfg2, hmem2⟩ := processStack_key_mem ctx rest k h2
            obtain ⟨f2, hf2, hk2eq⟩ := processDatabase_key_mem ctx cfg2 k hmem2
            have heq : mkDatabaseParameterKey ctx.stackId cfg.name f1 =
                mkDatabaseParameterKey ctx.stackId cfg2.name f2 := by
              rw [← hk1eq, ← hk2eq]
            exact hhead cfg2 hcfg2
              (mkDatabaseParameterKey_inj ctx.stackId cfg.name f1 cfg2.name f2
                (allParameterFields_no_slash f1 hf1)
                (allParameterFields_no_slash f2 hf2) heq).1

/-- **C8** witness: a pass over two differently named configs (one with
an EdgeDB layer each side) publishes pairwise distinct keys. -/
theorem c8_parameter_keys_witness :
    (publishedKeys (processStack ctxWithDns [cfgAnalyticsEdge, cfgReportsEdge]).1).Nodup :=
  c8_parameter_keys_nodup ctxWithDns [cfgAnalyticsEdge, cfgReportsEdge]
    (by decide)

end ElsaInfra
